import Mathlib

/-!
A shallow embedding of the libcnab bundle-descriptor module (src/cnab.rs):
the CNAB descriptor schema types, the canonical-or-lenient decode pipeline
(Bundle::from_str and Bundle::from_file), and the BundleParseError taxonomy.

The JSON text parsers stand in for the external canonical_json and serde_json
crates, which are not part of the repository; they are modelled from the
spec's description of the two decode modes.  Everything else is translated
directly from src/cnab.rs.
-/

namespace Cnab

/-- A JSON document.  Numbers are modelled as integers: every numeric field of
the CNAB schema is a 64-bit integer, and canonical JSON restricts numbers to a
canonical integral representation. -/
inductive Json where
  | null : Json
  | bool (b : Bool) : Json
  | num (n : Int) : Json
  | str (s : String) : Json
  | arr (xs : List Json) : Json
  | obj (members : List (String × Json)) : Json

/-- Whitespace characters that are insignificant in permissive JSON and
forbidden between tokens in canonical JSON. -/
def isWsChar (c : Char) : Bool :=
  c = ' ' || c = '\n' || c = '\t' || c = '\r'

/-- Drop leading whitespace. -/
def skipWs : List Char → List Char
  | [] => []
  | c :: cs => if isWsChar c then skipWs cs else c :: cs

/-- Modelled from the spec: the parse-level failure causes of the two JSON
decoders (canonical_json::SyntaxError and serde_json parse errors, neither
crate being part of the repository).  Positions (line, column) carried by the
Rust errors are elided: Bundle::from_str matches them with wildcards. -/
inductive ParseErr where
  | unexpectedWhitespace : ParseErr
  | badKeyOrder : ParseErr
  | malformed : ParseErr
  | fuelOut : ParseErr

/-- Position the input at the next token.  In strict (canonical) mode any
whitespace before a token is the UnexpectedWhitespace syntax error; in
permissive mode whitespace is skipped. -/
def lead (strict : Bool) (cs : List Char) : Except ParseErr (List Char) :=
  if strict then
    match cs with
    | [] => .ok []
    | c :: _ => if isWsChar c then .error .unexpectedWhitespace else .ok cs
  else .ok (skipWs cs)

/-- Read the body of a JSON string literal up to the closing quote.
Escape sequences are not modelled: no claim depends on them. -/
def takeStr : List Char → Option (List Char × List Char)
  | [] => none
  | c :: rest =>
    if c = '"' then some ([], rest)
    else
      match takeStr rest with
      | some (s, r) => some (c :: s, r)
      | none => none

/-- Split a leading run of decimal digits from the input. -/
def readDigits : List Char → List Char × List Char
  | [] => ([], [])
  | c :: cs =>
    if c.isDigit then
      let p := readDigits cs
      (c :: p.1, p.2)
    else ([], c :: cs)

/-- Numeric value of a digit run. -/
def digitsVal (ds : List Char) : Nat :=
  ds.foldl (fun acc c => acc * 10 + (c.toNat - 48)) 0

/-- A multi-digit number may not start with 0. -/
def leadingZero (ds : List Char) : Bool :=
  match ds with
  | '0' :: _ :: _ => true
  | _ => false

/-- Parse an integral JSON number (both modes accept the same numbers). -/
def jNum (cs : List Char) : Except ParseErr (Json × List Char) :=
  match cs with
  | '-' :: rest =>
    match readDigits rest with
    | ([], _) => .error .malformed
    | (ds, r) =>
      if leadingZero ds then .error .malformed
      else .ok (Json.num (-(digitsVal ds : Int)), r)
  | _ =>
    match readDigits cs with
    | ([], _) => .error .malformed
    | (ds, r) =>
      if leadingZero ds then .error .malformed
      else .ok (Json.num (digitsVal ds), r)

/-- Strip an expected literal (null, true, false) from the input. -/
def stripLit : List Char → List Char → Option (List Char)
  | [], cs => some cs
  | l :: ls, c :: cs => if c = l then stripLit ls cs else none
  | _ :: _, [] => none

/-- The opening brace character. -/
def lbrace : Char := Char.ofNat 123

/-- The closing brace character. -/
def rbrace : Char := Char.ofNat 125

/-- Lexicographic strictly-less comparison of character lists (by code point,
which for UTF-8 encoded strings agrees with the byte order used by Rust's
Ord for String, the order of BTreeMap iteration and of canonical JSON keys). -/
def charListLt : List Char → List Char → Bool
  | [], [] => false
  | [], _ :: _ => true
  | _ :: _, [] => false
  | a :: as, b :: bs =>
    if a.toNat < b.toNat then true
    else if b.toNat < a.toNat then false
    else charListLt as bs

/-- Lexicographic strictly-less comparison of strings. -/
def strLt (a b : String) : Bool :=
  charListLt a.data b.data

/-- Canonical JSON requires object keys in strictly increasing order. -/
def keyOrderOk (prev : Option String) (k : String) : Bool :=
  match prev with
  | none => true
  | some p => strLt p k

mutual

/-- Modelled from the spec: one recursive-descent JSON value parser covering
both decode modes.  With strict = true it behaves as the canonical_json
parser (whitespace between tokens is the UnexpectedWhitespace syntax error,
object keys must be strictly sorted); with strict = false it is the ordinary
permissive serde_json parser.  The Nat argument is recursion fuel. -/
def jVal (strict : Bool) : Nat → List Char → Except ParseErr (Json × List Char)
  | 0, _ => .error .fuelOut
  | fuel + 1, cs =>
    match lead strict cs with
    | .error e => .error e
    | .ok cs2 =>
      match cs2 with
      | [] => .error .malformed
      | c :: rest =>
        if c = '"' then
          match takeStr rest with
          | some (s, r) => .ok (Json.str (String.mk s), r)
          | none => .error .malformed
        else if c = '[' then
          match lead strict rest with
          | .error e => .error e
          | .ok r2 =>
            match r2 with
            | ']' :: r3 => .ok (Json.arr [], r3)
            | _ =>
              match jArrRest strict fuel r2 with
              | .error e => .error e
              | .ok (vs, r3) => .ok (Json.arr vs, r3)
        else if c = lbrace then
          match lead strict rest with
          | .error e => .error e
          | .ok r2 =>
            match r2 with
            | [] => .error .malformed
            | c2 :: r3 =>
              if c2 = rbrace then .ok (Json.obj [], r3)
              else
                match jObjRest strict fuel none (c2 :: r3) with
                | .error e => .error e
                | .ok (ms, r4) => .ok (Json.obj ms, r4)
        else
          match stripLit ['n', 'u', 'l', 'l'] cs2 with
          | some r => .ok (Json.null, r)
          | none =>
            match stripLit ['t', 'r', 'u', 'e'] cs2 with
            | some r => .ok (Json.bool true, r)
            | none =>
              match stripLit ['f', 'a', 'l', 's', 'e'] cs2 with
              | some r => .ok (Json.bool false, r)
              | none => jNum cs2

/-- Parse the elements of a non-empty array, positioned at the first element. -/
def jArrRest (strict : Bool) : Nat → List Char → Except ParseErr (List Json × List Char)
  | 0, _ => .error .fuelOut
  | fuel + 1, cs =>
    match jVal strict fuel cs with
    | .error e => .error e
    | .ok (v, r) =>
      match lead strict r with
      | .error e => .error e
      | .ok r2 =>
        match r2 with
        | ',' :: r3 =>
          match jArrRest strict fuel r3 with
          | .error e => .error e
          | .ok (vs, r4) => .ok (v :: vs, r4)
        | ']' :: r3 => .ok ([v], r3)
        | _ => .error .malformed

/-- Parse the members of a non-empty object, positioned at the first key.
In strict mode each key must exceed the previous key. -/
def jObjRest (strict : Bool) : Nat → Option String → List Char → Except ParseErr (List (String × Json) × List Char)
  | 0, _, _ => .error .fuelOut
  | fuel + 1, prev, cs =>
    match cs with
    | [] => .error .malformed
    | c :: rest =>
      if c = '"' then
        match takeStr rest with
        | none => .error .malformed
        | some (kcs, r) =>
          let k := String.mk kcs
          if strict && !keyOrderOk prev k then .error .badKeyOrder
          else
            match lead strict r with
            | .error e => .error e
            | .ok r2 =>
              match r2 with
              | ':' :: r3 =>
                match jVal strict fuel r3 with
                | .error e => .error e
                | .ok (v, r4) =>
                  match lead strict r4 with
                  | .error e => .error e
                  | .ok r5 =>
                    match r5 with
                    | [] => .error .malformed
                    | c5 :: r6 =>
                      if c5 = ',' then
                        match lead strict r6 with
                        | .error e => .error e
                        | .ok r7 =>
                          match jObjRest strict fuel (some k) r7 with
                          | .error e => .error e
                          | .ok (ms, r8) => .ok ((k, v) :: ms, r8)
                      else if c5 = rbrace then .ok ([(k, v)], r6)
                      else .error .malformed
              | _ => .error .malformed
      else .error .malformed

end

/-- Modelled from the spec: parse a whole JSON document in the given mode,
requiring the document to span the entire input (in strict mode even trailing
whitespace is the UnexpectedWhitespace error). -/
def parseDoc (strict : Bool) (s : String) : Except ParseErr Json :=
  match jVal strict (s.data.length + 1) s.data with
  | .error e => .error e
  | .ok (j, rest) =>
    match lead strict rest with
    | .error e => .error e
    | .ok r => if r.isEmpty then .ok j else .error .malformed

example : parseDoc false " [1, true, \"a\"] " = .ok (Json.arr [Json.num 1, Json.bool true, Json.str "a"]) := rfl

example : parseDoc true "[1,true,\"a\"]" = .ok (Json.arr [Json.num 1, Json.bool true, Json.str "a"]) := rfl

example : parseDoc true "[1, 2]" = .error .unexpectedWhitespace := rfl

example : parseDoc true "\x7b\"b\":1,\"a\":2\x7d" = .error .badKeyOrder := rfl

example : parseDoc false "\x7b\"b\":1,\"a\":null\x7d" = .ok (Json.obj [("b", Json.num 1), ("a", Json.null)]) := rfl

/-- Decode-level failure: a structurally valid JSON document does not match
the descriptor schema (a required field is absent, or a value has the wrong
type for its field). -/
inductive DErr where
  | missingField (name : String) : DErr
  | typeMismatch (expected : String) : DErr

/-- The error type of the canonical_json crate, as far as Bundle::from_str
and Bundle::from_file inspect it: the syn constructor is Error::Syntax
(positions elided, the Rust code matches them with wildcards), and fromData
covers schema-level failures surfaced through the canonical decode. -/
inductive CanonErr where
  | syn (e : ParseErr) : CanonErr
  | fromData (e : DErr) : CanonErr

/-- The error type of the permissive serde_json decode: a parse failure or a
schema-level failure. -/
inductive SerdeErr where
  | parse (e : ParseErr) : SerdeErr
  | fromData (e : DErr) : SerdeErr

/-- An I/O failure opening the source file. -/
inductive IoErr where
  | notFound : IoErr

/-- BundleParseError from src/cnab.rs: the three typed error kinds a decode
can return. -/
inductive BundleParseError where
  | SerdeJSONError (e : SerdeErr) : BundleParseError
  | CanonicalJSONError (e : CanonErr) : BundleParseError
  | IoError (e : IoErr) : BundleParseError

/-- An ordered map keyed by String, modelling std BTreeMap: an association
list kept sorted by key. -/
abbrev SMap (α : Type) := List (String × α)

/-- Insert into a key-sorted association list, keeping it sorted; an existing
binding of the same key is overwritten (BTreeMap::insert). -/
def insertSorted {α : Type} (k : String) (v : α) : SMap α → SMap α
  | [] => [(k, v)]
  | (k2, v2) :: rest =>
    if strLt k k2 then (k, v) :: (k2, v2) :: rest
    else if k = k2 then (k, v) :: rest
    else (k2, v2) :: insertSorted k v rest

/-- Build a BTreeMap from entries in stream order (later duplicates win). -/
def smapOfList {α : Type} (l : List (String × α)) : SMap α :=
  l.foldl (fun m kv => insertSorted kv.1 kv.2 m) []

/-- Destination from src/cnab.rs (PathBuf fields modelled as String). -/
structure Destination where
  env : Option String
  path : Option String

/-- Platform from src/cnab.rs. -/
structure Platform where
  arch : Option String
  os : Option String

/-- Maintainer from src/cnab.rs. -/
structure Maintainer where
  email : Option String
  name : String
  url : Option String

/-- Credential from src/cnab.rs. -/
structure Credential where
  description : Option String
  env : Option String
  path : Option String

/-- Metadata from src/cnab.rs. -/
structure Metadata where
  description : Option String

/-- Image from src/cnab.rs. -/
structure Image where
  digest : Option String
  image : String
  image_type : Option String
  media_type : Option String
  platform : Option Platform
  size : Option Int

/-- Parameter from src/cnab.rs. -/
structure Parameter where
  apply_to : Option (List String)
  destination : Destination
  default_value : Option Json
  allowed_values : Option (List Json)
  exclusive_maximum : Option Int
  exclusive_minimum : Option Int
  maximum : Option Int
  max_length : Option Int
  metadata : Option Metadata
  minimum : Option Int
  min_length : Option Int
  pattern : Option String
  required : Bool
  parameter_type : String

/-- Action from src/cnab.rs. -/
structure Action where
  description : Option String
  modifies : Bool
  stateless : Bool

/-- Bundle from src/cnab.rs. -/
structure Bundle where
  actions : Option (SMap Action)
  credentials : Option (SMap Credential)
  custom : Option (SMap Json)
  description : Option String
  images : Option (SMap Image)
  invocation_images : List Image
  keywords : Option (List String)
  license : Option String
  maintainers : Option (List Maintainer)
  name : String
  parameters : Option (SMap Parameter)
  schema_version : String
  version : String

/-- Look up the first member with the given key in a JSON object's members. -/
def getField (l : List (String × Json)) (k : String) : Option Json :=
  match l with
  | [] => none
  | (k2, v) :: rest => if k2 = k then some v else getField rest k

/-- Decode an optional (Option-typed) field from its looked-up member, with
serde semantics: a missing key and an explicit JSON null both decode to
none; any other value is decoded by f. -/
def optFieldD {α : Type} (o : Option Json) (f : Json → Except DErr α) : Except DErr (Option α) :=
  match o with
  | none => .ok none
  | some .null => .ok none
  | some v =>
    match f v with
    | .ok a => .ok (some a)
    | .error e => .error e

/-- Decode a required field from its looked-up member: a missing key is an
error, any present value (including null) is decoded by f. -/
def reqFieldD {α : Type} (k : String) (o : Option Json) (f : Json → Except DErr α) : Except DErr α :=
  match o with
  | none => .error (.missingField k)
  | some v => f v

/-- Decode a JSON value as a string. -/
def asString : Json → Except DErr String
  | .str s => .ok s
  | _ => .error (.typeMismatch "string")

/-- Decode a JSON value as a boolean. -/
def asBool : Json → Except DErr Bool
  | .bool b => .ok b
  | _ => .error (.typeMismatch "bool")

/-- Decode a JSON value as a 64-bit integer. -/
def asInt : Json → Except DErr Int
  | .num n => .ok n
  | _ => .error (.typeMismatch "int")

/-- Decode a JSON value as a raw serde_json::Value (always succeeds). -/
def asJson (v : Json) : Except DErr Json :=
  .ok v

/-- Decode a bool field carrying serde's default attribute: a missing key
decodes to false, a present value must be a boolean. -/
def defBoolD (o : Option Json) : Except DErr Bool :=
  match o with
  | none => .ok false
  | some v => asBool v

/-- Decode each element of a list of JSON values. -/
def decodeListAux {α : Type} (f : Json → Except DErr α) : List Json → Except DErr (List α)
  | [] => .ok []
  | v :: rest =>
    match f v with
    | .error e => .error e
    | .ok a =>
      match decodeListAux f rest with
      | .error e => .error e
      | .ok tl => .ok (a :: tl)

/-- Decode a JSON value as a Vec of schema values. -/
def decodeList {α : Type} (f : Json → Except DErr α) : Json → Except DErr (List α)
  | .arr xs => decodeListAux f xs
  | _ => .error (.typeMismatch "array")

/-- Decode the members of a JSON object pairwise. -/
def decodeEntries {α : Type} (f : Json → Except DErr α) : List (String × Json) → Except DErr (List (String × α))
  | [] => .ok []
  | (k, v) :: rest =>
    match f v with
    | .error e => .error e
    | .ok a =>
      match decodeEntries f rest with
      | .error e => .error e
      | .ok tl => .ok ((k, a) :: tl)

/-- Decode a JSON value as a BTreeMap keyed by String: the value must be an
object, whose members are decoded in order and inserted into the map. -/
def decodeSMap {α : Type} (f : Json → Except DErr α) : Json → Except DErr (SMap α)
  | .obj l =>
    match decodeEntries f l with
    | .error e => .error e
    | .ok es => .ok (smapOfList es)
  | _ => .error (.typeMismatch "map")

/-- Decode a Destination (both fields optional). -/
def decodeDestination : Json → Except DErr Destination
  | .obj l => do
    let env ← optFieldD (getField l "env") asString
    let path ← optFieldD (getField l "path") asString
    .ok ⟨env, path⟩
  | _ => .error (.typeMismatch "Destination")

/-- Decode a Platform (both fields optional). -/
def decodePlatform : Json → Except DErr Platform
  | .obj l => do
    let arch ← optFieldD (getField l "arch") asString
    let os ← optFieldD (getField l "os") asString
    .ok ⟨arch, os⟩
  | _ => .error (.typeMismatch "Platform")

/-- Decode a Maintainer (name required). -/
def decodeMaintainer : Json → Except DErr Maintainer
  | .obj l => do
    let email ← optFieldD (getField l "email") asString
    let name ← reqFieldD "name" (getField l "name") asString
    let url ← optFieldD (getField l "url") asString
    .ok ⟨email, name, url⟩
  | _ => .error (.typeMismatch "Maintainer")

/-- Decode a Credential (all fields optional). -/
def decodeCredential : Json → Except DErr Credential
  | .obj l => do
    let description ← optFieldD (getField l "description") asString
    let env ← optFieldD (getField l "env") asString
    let path ← optFieldD (getField l "path") asString
    .ok ⟨description, env, path⟩
  | _ => .error (.typeMismatch "Credential")

/-- Decode a Metadata. -/
def decodeMetadata : Json → Except DErr Metadata
  | .obj l => do
    let description ← optFieldD (getField l "description") asString
    .ok ⟨description⟩
  | _ => .error (.typeMismatch "Metadata")

/-- Decode an Image (image required; external camelCase keys imageType and
mediaType). -/
def decodeImage : Json → Except DErr Image
  | .obj l => do
    let digest ← optFieldD (getField l "digest") asString
    let image ← reqFieldD "image" (getField l "image") asString
    let image_type ← optFieldD (getField l "imageType") asString
    let media_type ← optFieldD (getField l "mediaType") asString
    let platform ← optFieldD (getField l "platform") decodePlatform
    let size ← optFieldD (getField l "size") asInt
    .ok ⟨digest, image, image_type, media_type, platform, size⟩
  | _ => .error (.typeMismatch "Image")

/-- Decode a Parameter.  External keys follow the serde rename attributes of
src/cnab.rs: applyTo, defaultValue, enum (for allowed_values), the camelCase
bound names, and type (for parameter_type); required carries serde's default
attribute and defaults to false when the key is absent. -/
def decodeParameter : Json → Except DErr Parameter
  | .obj l => do
    let apply_to ← optFieldD (getField l "applyTo") (decodeList asString)
    let destination ← reqFieldD "destination" (getField l "destination") decodeDestination
    let default_value ← optFieldD (getField l "defaultValue") asJson
    let allowed_values ← optFieldD (getField l "enum") (decodeList asJson)
    let exclusive_maximum ← optFieldD (getField l "exclusiveMaximum") asInt
    let exclusive_minimum ← optFieldD (getField l "exclusiveMinimum") asInt
    let maximum ← optFieldD (getField l "maximum") asInt
    let max_length ← optFieldD (getField l "maxLength") asInt
    let metadata ← optFieldD (getField l "metadata") decodeMetadata
    let minimum ← optFieldD (getField l "minimum") asInt
    let min_length ← optFieldD (getField l "minLength") asInt
    let pattern ← optFieldD (getField l "pattern") asString
    let required ← defBoolD (getField l "required")
    let parameter_type ← reqFieldD "type" (getField l "type") asString
    .ok ⟨apply_to, destination, default_value, allowed_values, exclusive_maximum,
         exclusive_minimum, maximum, max_length, metadata, minimum, min_length,
         pattern, required, parameter_type⟩
  | _ => .error (.typeMismatch "Parameter")

/-- Decode an Action; modifies and stateless carry serde's default attribute
and default to false when their keys are absent. -/
def decodeAction : Json → Except DErr Action
  | .obj l => do
    let description ← optFieldD (getField l "description") asString
    let modifies ← defBoolD (getField l "modifies")
    let stateless ← defBoolD (getField l "stateless")
    .ok ⟨description, modifies, stateless⟩
  | _ => .error (.typeMismatch "Action")

/-- Decode a Bundle.  Required fields: invocationImages, name, schemaVersion,
version; all others are Option-typed. -/
def decodeBundle : Json → Except DErr Bundle
  | .obj l => do
    let actions ← optFieldD (getField l "actions") (decodeSMap decodeAction)
    let credentials ← optFieldD (getField l "credentials") (decodeSMap decodeCredential)
    let custom ← optFieldD (getField l "custom") (decodeSMap asJson)
    let description ← optFieldD (getField l "description") asString
    let images ← optFieldD (getField l "images") (decodeSMap decodeImage)
    let invocation_images ← reqFieldD "invocationImages" (getField l "invocationImages") (decodeList decodeImage)
    let keywords ← optFieldD (getField l "keywords") (decodeList asString)
    let license ← optFieldD (getField l "license") asString
    let maintainers ← optFieldD (getField l "maintainers") (decodeList decodeMaintainer)
    let name ← reqFieldD "name" (getField l "name") asString
    let parameters ← optFieldD (getField l "parameters") (decodeSMap decodeParameter)
    let schema_version ← reqFieldD "schemaVersion" (getField l "schemaVersion") asString
    let version ← reqFieldD "version" (getField l "version") asString
    .ok ⟨actions, credentials, custom, description, images, invocation_images,
         keywords, license, maintainers, name, parameters, schema_version, version⟩
  | _ => .error (.typeMismatch "Bundle")

/-- The canonical decode: canonical_json::from_str targeting Bundle. -/
def canonicalDecode (s : String) : Except CanonErr Bundle :=
  match parseDoc true s with
  | .error e => .error (.syn e)
  | .ok j =>
    match decodeBundle j with
    | .error e => .error (.fromData e)
    | .ok b => .ok b

/-- The permissive decode: serde_json::from_str targeting Bundle. -/
def serdeDecode (s : String) : Except SerdeErr Bundle :=
  match parseDoc false s with
  | .error e => .error (.parse e)
  | .ok j =>
    match decodeBundle j with
    | .error e => .error (.fromData e)
    | .ok b => .ok b

/-- Does a canonical error match the Rust pattern
Error::Syntax(SyntaxError::UnexpectedWhitespace, _, _)? -/
def CanonErr.isUnexpectedWhitespace : CanonErr → Bool
  | .syn .unexpectedWhitespace => true
  | _ => false

/-- Bundle::from_str from src/cnab.rs (decode_from_string): attempt the
canonical decode; on the UnexpectedWhitespace syntax error retry once with
the permissive decode and return its outcome; return any other canonical
failure unchanged. -/
def fromStr (s : String) : Except BundleParseError Bundle :=
  match canonicalDecode s with
  | .ok b => .ok b
  | .error err =>
    if err.isUnexpectedWhitespace then
      match serdeDecode s with
      | .ok b => .ok b
      | .error e => .error (BundleParseError.SerdeJSONError e)
    else .error (BundleParseError.CanonicalJSONError err)

/-- The observable outcome of Bundle::from_file: a Bundle, a returned
BundleParseError, or a panic (Rust's expect on the fallback re-open). -/
inductive FileOutcome where
  | ok (b : Bundle) : FileOutcome
  | err (e : BundleParseError) : FileOutcome
  | panicked (msg : String) : FileOutcome

/-- Bundle::from_file from src/cnab.rs (decode_from_file).  The file system
is modelled as a function from the index of the File::open call to its
result (none: the open fails), so the file's contents may change between the
first open and the fallback path's re-open.  The first open's failure is
returned as IoError via the question-mark operator; the re-open is followed
by expect("file not found"), which panics when that open fails. -/
def fromFile (fs : Nat → Option String) : FileOutcome :=
  match fs 0 with
  | none => .err (BundleParseError.IoError IoErr.notFound)
  | some s =>
    match canonicalDecode s with
    | .ok b => .ok b
    | .error err =>
      if err.isUnexpectedWhitespace then
        match fs 1 with
        | none => .panicked "file not found"
        | some s2 =>
          match serdeDecode s2 with
          | .ok b => .ok b
          | .error e => .err (BundleParseError.SerdeJSONError e)
      else .err (BundleParseError.CanonicalJSONError err)

/-- Is an Except value a success? -/
def okB {ε α : Type} : Except ε α → Bool
  | .ok _ => true
  | .error _ => false

/-- Did a from_file call panic? -/
def FileOutcome.isPanic : FileOutcome → Bool
  | .panicked _ => true
  | _ => false

/-- Embed the from_str result type into the from_file outcome type. -/
def toOutcome : Except BundleParseError Bundle → FileOutcome
  | .ok b => .ok b
  | .error e => .err e

/-- The minimal canonical bundle text: sorted keys, no whitespace. -/
def canonDemo : String :=
  "\x7b\"invocationImages\":[],\"name\":\"x\",\"schemaVersion\":\"1.0\",\"version\":\"0.1.0\"\x7d"

/-- The same document pretty-printed: a newline after the opening brace. -/
def prettyDemo : String :=
  "\x7b\n\"invocationImages\":[],\"name\":\"x\",\"schemaVersion\":\"1.0\",\"version\":\"0.1.0\"\x7d"

/-- The same document with valid JSON but unsorted keys and no whitespace. -/
def unsortedDemo : String :=
  "\x7b\"name\":\"x\",\"invocationImages\":[],\"schemaVersion\":\"1.0\",\"version\":\"0.1.0\"\x7d"

/-- The members of the parsed form of canonDemo. -/
def demoMembers : List (String × Json) :=
  [("invocationImages", Json.arr []), ("name", Json.str "x"),
   ("schemaVersion", Json.str "1.0"), ("version", Json.str "0.1.0")]

/-- The parsed form of canonDemo. -/
def demoDoc : Json := Json.obj demoMembers

/-- The decoded form of canonDemo. -/
def demoBundle : Bundle :=
  ⟨none, none, none, none, none, [], none, none, none, "x", none, "1.0", "0.1.0"⟩

example : parseDoc true canonDemo = .ok demoDoc := rfl
example : parseDoc false prettyDemo = .ok demoDoc := rfl
example : parseDoc true prettyDemo = .error .unexpectedWhitespace := rfl
example : parseDoc true unsortedDemo = .error .badKeyOrder := rfl
example : decodeBundle demoDoc = .ok demoBundle := rfl
example : fromStr canonDemo = .ok demoBundle := rfl
example : fromStr prettyDemo = .ok demoBundle := rfl
example : fromStr unsortedDemo = .error (BundleParseError.CanonicalJSONError (.syn .badKeyOrder)) := rfl

/-- Inversion of a successful monadic bind on Except. -/
theorem bindOk {eps a b : Type} {x : Except eps a} {f : a → Except eps b} {v : b}
    (h : x >>= f = .ok v) : ∃ u, x = .ok u ∧ f u = .ok v := by
  cases x with
  | ok u => exact ⟨u, rfl, h⟩
  | error e => simp [Bind.bind, Except.bind] at h

/-- A character is determined by its numeric code. -/
theorem charToNat_inj {a b : Char} (h : a.toNat = b.toNat) : a = b :=
  Char.eq_of_val_eq (UInt32.eq_of_toBitVec_eq (BitVec.eq_of_toNat_eq h))

/-- Transitivity of the lexicographic comparison. -/
theorem charListLt_trans : ∀ {a b c : List Char},
    charListLt a b = true → charListLt b c = true → charListLt a c = true
  | [], [], _, h1, _ => by simp [charListLt] at h1
  | [], _ :: _, [], _, h2 => by simp [charListLt] at h2
  | [], _ :: _, _ :: _, _, _ => by simp [charListLt]
  | _ :: _, [], _, h1, _ => by simp [charListLt] at h1
  | _ :: _, _ :: _, [], _, h2 => by simp [charListLt] at h2
  | x :: xs, y :: ys, z :: zs, h1, h2 => by
    simp only [charListLt] at h1 h2 ⊢
    rcases Nat.lt_trichotomy x.toNat y.toNat with hxy | hxy | hxy
    · rcases Nat.lt_trichotomy y.toNat z.toNat with hyz | hyz | hyz
      · simp [Nat.lt_trans hxy hyz]
      · have : x.toNat < z.toNat := by omega
        simp [this]
      · have e1 : ¬ y.toNat < z.toNat := by omega
        simp [e1, hyz] at h2
    · rcases Nat.lt_trichotomy y.toNat z.toNat with hyz | hyz | hyz
      · have : x.toNat < z.toNat := by omega
        simp [this]
      · have e1 : ¬ x.toNat < y.toNat := by omega
        have e2 : ¬ y.toNat < x.toNat := by omega
        have e3 : ¬ y.toNat < z.toNat := by omega
        have e4 : ¬ z.toNat < y.toNat := by omega
        have e5 : ¬ x.toNat < z.toNat := by omega
        have e6 : ¬ z.toNat < x.toNat := by omega
        simp only [if_neg e1, if_neg e2] at h1
        simp only [if_neg e3, if_neg e4] at h2
        simp only [if_neg e5, if_neg e6]
        exact charListLt_trans h1 h2
      · have e1 : ¬ y.toNat < z.toNat := by omega
        simp [e1, hyz] at h2
    · have e1 : ¬ x.toNat < y.toNat := by omega
      simp [e1, hxy] at h1

/-- Two lists neither of which precedes the other are equal. -/
theorem charListLt_eq_of_not : ∀ {a b : List Char},
    charListLt a b = false → charListLt b a = false → a = b
  | [], [], _, _ => rfl
  | [], _ :: _, h1, _ => by simp [charListLt] at h1
  | _ :: _, [], _, h2 => by simp [charListLt] at h2
  | x :: xs, y :: ys, h1, h2 => by
    simp only [charListLt] at h1 h2
    have e1 : ¬ x.toNat < y.toNat := by
      intro e
      simp [e] at h1
    have e2 : ¬ y.toNat < x.toNat := by
      intro e
      simp [e] at h2
    simp only [if_neg e1, if_neg e2] at h1
    simp only [if_neg e2, if_neg e1] at h2
    have hxy : x = y := charToNat_inj (by omega)
    have hts : xs = ys := charListLt_eq_of_not h1 h2
    rw [hxy, hts]

/-- Transitivity of the string comparison. -/
theorem strLt_trans {a b c : String} (h1 : strLt a b = true) (h2 : strLt b c = true) :
    strLt a c = true :=
  charListLt_trans h1 h2

/-- Totality: of two distinct strings one precedes the other. -/
theorem strLt_total {a b : String} (h1 : ¬ strLt a b = true) (h2 : a ≠ b) :
    strLt b a = true := by
  rcases hq : strLt b a with _ | _
  · exfalso
    apply h2
    have ha : charListLt a.data b.data = false := by
      rcases hz : strLt a b with _ | _
      · exact hz
      · exact absurd hz h1
    have hd : a.data = b.data := charListLt_eq_of_not ha hq
    cases a
    cases b
    exact congrArg String.mk hd
  · rfl

/-- Membership after a sorted insert: the new pair or an old member. -/
theorem mem_insertSorted {α : Type} {k : String} {v : α} {x : String × α} :
    ∀ {m : SMap α}, x ∈ insertSorted k v m → x = (k, v) ∨ x ∈ m
  | [], h => by simpa [insertSorted] using h
  | (k2, v2) :: rest, h => by
    simp only [insertSorted] at h
    by_cases h1 : strLt k k2 = true
    · rw [if_pos h1] at h
      simpa using h
    · rw [if_neg h1] at h
      by_cases h2 : k = k2
      · rw [if_pos h2] at h
        rcases List.mem_cons.mp h with hx | hx
        · exact Or.inl hx
        · exact Or.inr (List.mem_cons_of_mem _ hx)
      · rw [if_neg h2] at h
        rcases List.mem_cons.mp h with hx | hx
        · exact Or.inr (hx ▸ List.mem_cons_self _ _)
        · rcases mem_insertSorted hx with hx2 | hx2
          · exact Or.inl hx2
          · exact Or.inr (List.mem_cons_of_mem _ hx2)

/-- A sorted insert preserves strict sortedness by key. -/
theorem insertSorted_pairwise {α : Type} {k : String} {v : α} :
    ∀ {m : SMap α}, m.Pairwise (fun p q => strLt p.1 q.1 = true) →
      (insertSorted k v m).Pairwise (fun p q => strLt p.1 q.1 = true)
  | [], _ => by simp [insertSorted]
  | (k2, v2) :: rest, h => by
    rw [List.pairwise_cons] at h
    obtain ⟨hhd, htl⟩ := h
    simp only [insertSorted]
    by_cases h1 : strLt k k2 = true
    · rw [if_pos h1]
      refine List.Pairwise.cons ?_ (List.Pairwise.cons hhd htl)
      intro x hx
      rcases List.mem_cons.mp hx with rfl | hx
      · exact h1
      · exact strLt_trans h1 (hhd x hx)
    · rw [if_neg h1]
      by_cases h2 : k = k2
      · rw [if_pos h2]
        subst h2
        exact List.Pairwise.cons hhd htl
      · rw [if_neg h2]
        have h3 : strLt k2 k = true := strLt_total h1 h2
        refine List.Pairwise.cons ?_ (insertSorted_pairwise htl)
        intro x hx
        rcases mem_insertSorted hx with rfl | hx
        · exact h3
        · exact hhd x hx

/-- Folding sorted inserts over any entry list preserves sortedness. -/
theorem foldl_insertSorted_pairwise {α : Type} :
    ∀ (l : List (String × α)) (m : SMap α),
      m.Pairwise (fun p q => strLt p.1 q.1 = true) →
      (l.foldl (fun m kv => insertSorted kv.1 kv.2 m) m).Pairwise
        (fun p q => strLt p.1 q.1 = true)
  | [], _, h => h
  | _ :: rest, _, h => foldl_insertSorted_pairwise rest _ (insertSorted_pairwise h)

/-- A map built from arbitrary entries is strictly sorted by key. -/
theorem smapOfList_pairwise {α : Type} (l : List (String × α)) :
    (smapOfList l).Pairwise (fun p q => strLt p.1 q.1 = true) :=
  foldl_insertSorted_pairwise l [] (by simp)

/-- Decidable check that a map's keys are strictly sorted, lexicographically. -/
def keysSortedB {α : Type} : SMap α → Bool
  | [] => true
  | [_] => true
  | p :: q :: rest => strLt p.1 q.1 && keysSortedB (q :: rest)

/-- Strict pairwise sortedness implies the decidable check. -/
theorem pairwise_keysSortedB {α : Type} :
    ∀ {m : SMap α}, m.Pairwise (fun p q => strLt p.1 q.1 = true) → keysSortedB m = true
  | [], _ => rfl
  | [_], _ => rfl
  | p :: q :: rest, h => by
    rw [List.pairwise_cons] at h
    simp only [keysSortedB, Bool.and_eq_true]
    exact ⟨h.1 q (List.mem_cons_self _ _), pairwise_keysSortedB h.2⟩

/-- A successfully decoded map is strictly sorted by key. -/
theorem decodeSMap_sorted {α : Type} {f : Json → Except DErr α} {j : Json} {m : SMap α}
    (h : decodeSMap f j = .ok m) : keysSortedB m = true := by
  cases j with
  | obj l =>
    simp only [decodeSMap] at h
    cases he : decodeEntries f l with
    | error e => rw [he] at h; cases h
    | ok es =>
      rw [he] at h
      cases h
      exact pairwise_keysSortedB (smapOfList_pairwise es)
  | null => cases h
  | bool b => cases h
  | num n => cases h
  | str s => cases h
  | arr xs => cases h

/-- Lookup skips a leading member with a different key. -/
theorem getField_cons_ne {k2 k : String} {v : Json} {l : List (String × Json)}
    (h : k2 ≠ k) : getField ((k2, v) :: l) k = getField l k := by
  simp [getField, h]

/-- Lookup finds a leading member with the looked-up key. -/
theorem getField_cons_self {k : String} {v : Json} {l : List (String × Json)} :
    getField ((k, v) :: l) k = some v := by
  simp [getField]

/-- Does an object member list bind the given key? -/
def hasKey (l : List (String × Json)) (k : String) : Bool :=
  (getField l k).isSome

/-- An unbound key looks up to none. -/
theorem getField_none_of_not_hasKey {l : List (String × Json)} {k : String}
    (h : hasKey l k = false) : getField l k = none := by
  unfold hasKey at h
  cases hg : getField l k with
  | none => rfl
  | some v => rw [hg] at h; cases h

/-- The external field names of Bundle, in canonical order. -/
def bundleKeys : List String :=
  ["actions", "credentials", "custom", "description", "images", "invocationImages",
   "keywords", "license", "maintainers", "name", "parameters", "schemaVersion", "version"]

/-- The external names of the Option-typed fields of Bundle. -/
def bundleOptKeys : List String :=
  ["actions", "credentials", "custom", "description", "images", "keywords",
   "license", "maintainers", "parameters"]

/-- Remove the members of an object whose keys are not Bundle schema fields. -/
def stripUnknownB (l : List (String × Json)) : List (String × Json) :=
  l.filter fun e => decide (e.1 ∈ bundleKeys)

/-- Filtering an object down to a key set that contains k preserves k's lookup. -/
theorem getField_filter {ks : List String} {k : String} (hk : k ∈ ks) :
    ∀ {l : List (String × Json)},
      getField (l.filter fun e => decide (e.1 ∈ ks)) k = getField l k
  | [] => rfl
  | (k2, v) :: rest => by
    by_cases hm : k2 ∈ ks
    · rw [List.filter_cons_of_pos (by simpa using hm)]
      by_cases hke : k2 = k
      · subst hke
        rw [getField_cons_self, getField_cons_self]
      · rw [getField_cons_ne hke, getField_cons_ne hke]
        exact getField_filter hk
    · rw [List.filter_cons_of_neg (by simpa using hm)]
      have hke : k2 ≠ k := fun e => hm (e ▸ hk)
      rw [getField_cons_ne hke]
      exact getField_filter hk

/-- Two looked-up members are interchangeable for an Option-typed field when
equal, or when one is an explicit null and the other is absent. -/
def nullyEq (o1 o2 : Option Json) : Prop :=
  o1 = o2 ∨ (o1 = some Json.null ∧ o2 = none) ∨ (o1 = none ∧ o2 = some Json.null)

/-- Optional-field decoding cannot tell nullyEq members apart. -/
theorem optFieldD_congr {o1 o2 : Option Json} (h : nullyEq o1 o2) {α : Type}
    (f : Json → Except DErr α) : optFieldD o1 f = optFieldD o2 f := by
  rcases h with rfl | ⟨h1, h2⟩ | ⟨h1, h2⟩
  · rfl
  · rw [h1, h2]; rfl
  · rw [h1, h2]; rfl

/-- Bundle decoding depends on the member list only through the lookups of
its thirteen schema keys, the Option-typed ones only up to nullyEq. -/
theorem decodeBundle_fields_congr {l1 l2 : List (String × Json)}
    (ha : nullyEq (getField l1 "actions") (getField l2 "actions"))
    (hc : nullyEq (getField l1 "credentials") (getField l2 "credentials"))
    (hcu : nullyEq (getField l1 "custom") (getField l2 "custom"))
    (hd : nullyEq (getField l1 "description") (getField l2 "description"))
    (hi : nullyEq (getField l1 "images") (getField l2 "images"))
    (hii : getField l1 "invocationImages" = getField l2 "invocationImages")
    (hk : nullyEq (getField l1 "keywords") (getField l2 "keywords"))
    (hl : nullyEq (getField l1 "license") (getField l2 "license"))
    (hm : nullyEq (getField l1 "maintainers") (getField l2 "maintainers"))
    (hn : getField l1 "name" = getField l2 "name")
    (hp : nullyEq (getField l1 "parameters") (getField l2 "parameters"))
    (hs : getField l1 "schemaVersion" = getField l2 "schemaVersion")
    (hv : getField l1 "version" = getField l2 "version") :
    decodeBundle (Json.obj l1) = decodeBundle (Json.obj l2) := by
  simp only [decodeBundle]
  simp only [optFieldD_congr ha, optFieldD_congr hc, optFieldD_congr hcu,
    optFieldD_congr hd, optFieldD_congr hi, hii, optFieldD_congr hk,
    optFieldD_congr hl, optFieldD_congr hm, hn, optFieldD_congr hp, hs, hv]

/-- Platform decoding depends on the member list only through the lookups of
arch and os, up to nullyEq. -/
theorem decodePlatform_fields_congr {l1 l2 : List (String × Json)}
    (ha : nullyEq (getField l1 "arch") (getField l2 "arch"))
    (ho : nullyEq (getField l1 "os") (getField l2 "os")) :
    decodePlatform (Json.obj l1) = decodePlatform (Json.obj l2) := by
  simp only [decodePlatform]
  simp only [optFieldD_congr ha, optFieldD_congr ho]

/-- Image decoding depends on the member list only through the lookups of
its six schema keys, the Option-typed ones only up to nullyEq. -/
theorem decodeImage_fields_congr {l1 l2 : List (String × Json)}
    (h1 : nullyEq (getField l1 "digest") (getField l2 "digest"))
    (h2 : getField l1 "image" = getField l2 "image")
    (h3 : nullyEq (getField l1 "imageType") (getField l2 "imageType"))
    (h4 : nullyEq (getField l1 "mediaType") (getField l2 "mediaType"))
    (h5 : nullyEq (getField l1 "platform") (getField l2 "platform"))
    (h6 : nullyEq (getField l1 "size") (getField l2 "size")) :
    decodeImage (Json.obj l1) = decodeImage (Json.obj l2) := by
  simp only [decodeImage]
  simp only [optFieldD_congr h1, h2, optFieldD_congr h3, optFieldD_congr h4,
    optFieldD_congr h5, optFieldD_congr h6]

/-- Maintainer decoding depends on the member list only through the lookups
of its three schema keys, the Option-typed ones only up to nullyEq. -/
theorem decodeMaintainer_fields_congr {l1 l2 : List (String × Json)}
    (h1 : nullyEq (getField l1 "email") (getField l2 "email"))
    (h2 : getField l1 "name" = getField l2 "name")
    (h3 : nullyEq (getField l1 "url") (getField l2 "url")) :
    decodeMaintainer (Json.obj l1) = decodeMaintainer (Json.obj l2) := by
  simp only [decodeMaintainer]
  simp only [optFieldD_congr h1, h2, optFieldD_congr h3]

/-- Credential decoding depends on the member list only through the lookups
of its three schema keys, up to nullyEq. -/
theorem decodeCredential_fields_congr {l1 l2 : List (String × Json)}
    (h1 : nullyEq (getField l1 "description") (getField l2 "description"))
    (h2 : nullyEq (getField l1 "env") (getField l2 "env"))
    (h3 : nullyEq (getField l1 "path") (getField l2 "path")) :
    decodeCredential (Json.obj l1) = decodeCredential (Json.obj l2) := by
  simp only [decodeCredential]
  simp only [optFieldD_congr h1, optFieldD_congr h2, optFieldD_congr h3]

/-- Parameter decoding depends on the member list only through the lookups
of its fourteen schema keys, the Option-typed ones only up to nullyEq. -/
theorem decodeParameter_fields_congr {l1 l2 : List (String × Json)}
    (h1 : nullyEq (getField l1 "applyTo") (getField l2 "applyTo"))
    (h2 : getField l1 "destination" = getField l2 "destination")
    (h3 : nullyEq (getField l1 "defaultValue") (getField l2 "defaultValue"))
    (h4 : nullyEq (getField l1 "enum") (getField l2 "enum"))
    (h5 : nullyEq (getField l1 "exclusiveMaximum") (getField l2 "exclusiveMaximum"))
    (h6 : nullyEq (getField l1 "exclusiveMinimum") (getField l2 "exclusiveMinimum"))
    (h7 : nullyEq (getField l1 "maximum") (getField l2 "maximum"))
    (h8 : nullyEq (getField l1 "maxLength") (getField l2 "maxLength"))
    (h9 : nullyEq (getField l1 "metadata") (getField l2 "metadata"))
    (h10 : nullyEq (getField l1 "minimum") (getField l2 "minimum"))
    (h11 : nullyEq (getField l1 "minLength") (getField l2 "minLength"))
    (h12 : nullyEq (getField l1 "pattern") (getField l2 "pattern"))
    (h13 : getField l1 "required" = getField l2 "required")
    (h14 : getField l1 "type" = getField l2 "type") :
    decodeParameter (Json.obj l1) = decodeParameter (Json.obj l2) := by
  simp only [decodeParameter]
  simp only [optFieldD_congr h1, h2, optFieldD_congr h3, optFieldD_congr h4,
    optFieldD_congr h5, optFieldD_congr h6, optFieldD_congr h7, optFieldD_congr h8,
    optFieldD_congr h9, optFieldD_congr h10, optFieldD_congr h11, optFieldD_congr h12,
    h13, h14]

/-- Destination decoding depends on the member list only through the lookups
of env and path, up to nullyEq. -/
theorem decodeDestination_fields_congr {l1 l2 : List (String × Json)}
    (h1 : nullyEq (getField l1 "env") (getField l2 "env"))
    (h2 : nullyEq (getField l1 "path") (getField l2 "path")) :
    decodeDestination (Json.obj l1) = decodeDestination (Json.obj l2) := by
  simp only [decodeDestination]
  simp only [optFieldD_congr h1, optFieldD_congr h2]

/-- Action decoding depends on the member list only through the lookups of
its three schema keys, description only up to nullyEq. -/
theorem decodeAction_fields_congr {l1 l2 : List (String × Json)}
    (h1 : nullyEq (getField l1 "description") (getField l2 "description"))
    (h2 : getField l1 "modifies" = getField l2 "modifies")
    (h3 : getField l1 "stateless" = getField l2 "stateless") :
    decodeAction (Json.obj l1) = decodeAction (Json.obj l2) := by
  simp only [decodeAction]
  simp only [optFieldD_congr h1, h2, h3]

/-- Metadata decoding depends on the member list only through the lookup of
description, up to nullyEq. -/
theorem decodeMetadata_fields_congr {l1 l2 : List (String × Json)}
    (h1 : nullyEq (getField l1 "description") (getField l2 "description")) :
    decodeMetadata (Json.obj l1) = decodeMetadata (Json.obj l2) := by
  simp only [decodeMetadata]
  simp only [optFieldD_congr h1]

/-- The external names of the Option-typed fields of Image. -/
def imageOptKeys : List String :=
  ["digest", "imageType", "mediaType", "platform", "size"]

/-- The external names of the Option-typed fields of Platform. -/
def platformOptKeys : List String := ["arch", "os"]

/-- The external names of the Option-typed fields of Maintainer. -/
def maintainerOptKeys : List String := ["email", "url"]

/-- The external names of the Option-typed fields of Credential. -/
def credentialOptKeys : List String := ["description", "env", "path"]

/-- The external names of the Option-typed fields of Parameter (required is
bool-with-default, not Option-typed, so it is excluded). -/
def parameterOptKeys : List String :=
  ["applyTo", "defaultValue", "enum", "exclusiveMaximum", "exclusiveMinimum",
   "maximum", "maxLength", "metadata", "minimum", "minLength", "pattern"]

/-- The external names of the Option-typed fields of Destination. -/
def destinationOptKeys : List String := ["env", "path"]

/-- The external names of the Option-typed fields of Action (modifies and
stateless are bool-with-default, not Option-typed). -/
def actionOptKeys : List String := ["description"]

/-- The external names of the Option-typed fields of Metadata. -/
def metadataOptKeys : List String := ["description"]

/-- Prepending an explicit null member for an otherwise unbound key leaves
every lookup nullyEq to what it was. -/
theorem getField_cons_null_nullyEq {k fk : String} {l : List (String × Json)}
    (hno : hasKey l k = false) :
    nullyEq (getField ((k, Json.null) :: l) fk) (getField l fk) := by
  by_cases hke : k = fk
  · subst hke
    exact Or.inr (Or.inl ⟨getField_cons_self, getField_none_of_not_hasKey hno⟩)
  · exact Or.inl (getField_cons_ne hke)

/-- Inversion of a successful optional-field decode producing a value. -/
theorem optFieldD_some_inv {α : Type} {o : Option Json} {f : Json → Except DErr α} {a : α}
    (h : optFieldD o f = .ok (some a)) : ∃ v, o = some v ∧ f v = .ok a := by
  unfold optFieldD at h
  split at h
  · cases h
  · cases h
  · rename_i v hne
    split at h
    · rename_i a2 hf
      cases h
      exact ⟨v, rfl, hf⟩
    · cases h

/-- Decoding a list of raw serde_json values is the identity. -/
theorem decodeListAux_asJson : ∀ (xs : List Json), decodeListAux asJson xs = .ok xs
  | [] => rfl
  | x :: rest => by
    simp [decodeListAux, asJson, decodeListAux_asJson rest]

/-- A successful Bundle decode determines each field from its key's lookup. -/
theorem decodeBundle_ok_fields {l : List (String × Json)} {b : Bundle}
    (h : decodeBundle (Json.obj l) = .ok b) :
    optFieldD (getField l "actions") (decodeSMap decodeAction) = .ok b.actions ∧
    optFieldD (getField l "credentials") (decodeSMap decodeCredential) = .ok b.credentials ∧
    optFieldD (getField l "custom") (decodeSMap asJson) = .ok b.custom ∧
    optFieldD (getField l "images") (decodeSMap decodeImage) = .ok b.images ∧
    optFieldD (getField l "parameters") (decodeSMap decodeParameter) = .ok b.parameters ∧
    reqFieldD "invocationImages" (getField l "invocationImages") (decodeList decodeImage) = .ok b.invocation_images ∧
    reqFieldD "name" (getField l "name") asString = .ok b.name ∧
    reqFieldD "schemaVersion" (getField l "schemaVersion") asString = .ok b.schema_version ∧
    reqFieldD "version" (getField l "version") asString = .ok b.version := by
  simp only [decodeBundle] at h
  obtain ⟨actions, h1, h⟩ := bindOk h
  obtain ⟨credentials, h2, h⟩ := bindOk h
  obtain ⟨custom, h3, h⟩ := bindOk h
  obtain ⟨description, h4, h⟩ := bindOk h
  obtain ⟨images, h5, h⟩ := bindOk h
  obtain ⟨invocation_images, h6, h⟩ := bindOk h
  obtain ⟨keywords, h7, h⟩ := bindOk h
  obtain ⟨license, h8, h⟩ := bindOk h
  obtain ⟨maintainers, h9, h⟩ := bindOk h
  obtain ⟨name, h10, h⟩ := bindOk h
  obtain ⟨parameters, h11, h⟩ := bindOk h
  obtain ⟨schema_version, h12, h⟩ := bindOk h
  obtain ⟨version, h13, h⟩ := bindOk h
  cases h
  exact ⟨h1, h2, h3, h5, h11, h6, h10, h12, h13⟩

/-- A successful Parameter decode determines each field from its key's lookup. -/
theorem decodeParameter_ok_fields {l : List (String × Json)} {p : Parameter}
    (h : decodeParameter (Json.obj l) = .ok p) :
    optFieldD (getField l "enum") (decodeList asJson) = .ok p.allowed_values ∧
    defBoolD (getField l "required") = .ok p.required := by
  simp only [decodeParameter] at h
  obtain ⟨apply_to, h1, h⟩ := bindOk h
  obtain ⟨destination, h2, h⟩ := bindOk h
  obtain ⟨default_value, h3, h⟩ := bindOk h
  obtain ⟨allowed_values, h4, h⟩ := bindOk h
  obtain ⟨exclusive_maximum, h5, h⟩ := bindOk h
  obtain ⟨exclusive_minimum, h6, h⟩ := bindOk h
  obtain ⟨maximum, h7, h⟩ := bindOk h
  obtain ⟨max_length, h8, h⟩ := bindOk h
  obtain ⟨metadata, h9, h⟩ := bindOk h
  obtain ⟨minimum, h10, h⟩ := bindOk h
  obtain ⟨min_length, h11, h⟩ := bindOk h
  obtain ⟨pattern, h12, h⟩ := bindOk h
  obtain ⟨required, h13, h⟩ := bindOk h
  obtain ⟨parameter_type, h14, h⟩ := bindOk h
  cases h
  exact ⟨h4, h13⟩

/-- A successful Action decode determines each field from its key's lookup. -/
theorem decodeAction_ok_fields {l : List (String × Json)} {a : Action}
    (h : decodeAction (Json.obj l) = .ok a) :
    defBoolD (getField l "modifies") = .ok a.modifies ∧
    defBoolD (getField l "stateless") = .ok a.stateless := by
  simp only [decodeAction] at h
  obtain ⟨description, h1, h⟩ := bindOk h
  obtain ⟨modifies, h2, h⟩ := bindOk h
  obtain ⟨stateless, h3, h⟩ := bindOk h
  cases h
  exact ⟨h2, h3⟩

/-- C1: decode_from_string first attempts the canonical decode; a canonical
success is returned as is; a canonical failure whose cause is the
unexpected-whitespace syntax error triggers exactly one permissive retry on
the same text, whose result (Bundle or its error) is the final outcome; any
other canonical failure is returned immediately with no retry. -/
theorem claim1_decode_pipeline (s : String) :
    (∀ b, canonicalDecode s = .ok b → fromStr s = .ok b) ∧
    (∀ e b, canonicalDecode s = .error e → e.isUnexpectedWhitespace = true →
        serdeDecode s = .ok b → fromStr s = .ok b) ∧
    (∀ e e2, canonicalDecode s = .error e → e.isUnexpectedWhitespace = true →
        serdeDecode s = .error e2 →
        fromStr s = .error (BundleParseError.SerdeJSONError e2)) ∧
    (∀ e, canonicalDecode s = .error e → e.isUnexpectedWhitespace = false →
        fromStr s = .error (BundleParseError.CanonicalJSONError e)) := by
  refine ⟨?_, ?_, ?_, ?_⟩
  · intro b h1
    simp [fromStr, h1]
  · intro e b h1 h2 h3
    simp [fromStr, h1, h2, h3]
  · intro e e2 h1 h2 h3
    simp [fromStr, h1, h2, h3]
  · intro e h1 h2
    simp [fromStr, h1, h2]

/-- Witness for C1 at concrete inputs: the pretty-printed demo goes through
the permissive retry, and the unsorted-keys demo returns the first canonical
failure with no retry. -/
theorem claim1_decode_pipeline_witness :
    fromStr prettyDemo = .ok demoBundle ∧
    fromStr unsortedDemo =
      .error (BundleParseError.CanonicalJSONError (CanonErr.syn ParseErr.badKeyOrder)) :=
  ⟨(claim1_decode_pipeline prettyDemo).2.1 (CanonErr.syn ParseErr.unexpectedWhitespace)
      demoBundle rfl rfl rfl,
   (claim1_decode_pipeline unsortedDemo).2.2.2 (CanonErr.syn ParseErr.badKeyOrder) rfl rfl⟩

/-- A Parameter object carrying its enumeration under the key allowedValues,
together with the two required fields. -/
def cex2Members : List (String × Json) :=
  [("allowedValues", Json.arr [Json.str "a"]),
   ("destination", Json.obj [("env", Json.str "PORT")]),
   ("type", Json.str "string")]

/-- The Parameter that cex2Members decodes to. -/
def cex2Param : Parameter :=
  ⟨none, ⟨some "PORT", none⟩, none, none, none, none, none, none, none, none,
   none, none, false, "string"⟩

/-- C2 counterexample: a Parameter object whose allowedValues key holds a
list decodes successfully, but the decoded allowed-values field is not equal
to that list — it is absent — so allowedValues is not the external name of
the field. -/
theorem claim2_allowedValues_cex :
    decodeParameter (Json.obj cex2Members) = .ok cex2Param ∧
    cex2Param.allowed_values ≠ some [Json.str "a"] ∧
    cex2Param.allowed_values = none :=
  ⟨rfl, by simp [cex2Param], rfl⟩

/-- C2 as amended: the enumeration of allowed values is carried under the
external key enum: an object whose enum key holds a list decodes to a
Parameter whose allowed-values field is present and equal to that list, an
object without the enum key decodes with allowed values absent, and a member
under the key allowedValues is ignored as unknown — its presence never
changes the decode. -/
theorem claim2_enum_key :
    (∀ l xs p, getField l "enum" = some (Json.arr xs) →
        decodeParameter (Json.obj l) = .ok p → p.allowed_values = some xs) ∧
    (∀ l p, getField l "enum" = none →
        decodeParameter (Json.obj l) = .ok p → p.allowed_values = none) ∧
    (∀ v l, decodeParameter (Json.obj (("allowedValues", v) :: l)) =
        decodeParameter (Json.obj l)) := by
  refine ⟨?_, ?_, ?_⟩
  · intro l xs p hk hd
    have hf := (decodeParameter_ok_fields hd).1
    rw [hk] at hf
    simp only [optFieldD, decodeList, decodeListAux_asJson] at hf
    injection hf with h2
    exact h2.symm
  · intro l p hk hd
    have hf := (decodeParameter_ok_fields hd).1
    rw [hk] at hf
    simp only [optFieldD] at hf
    injection hf with h2
    exact h2.symm
  · intro v l
    exact decodeParameter_fields_congr
      (Or.inl (getField_cons_ne (by decide)))
      (getField_cons_ne (by decide))
      (Or.inl (getField_cons_ne (by decide)))
      (Or.inl (getField_cons_ne (by decide)))
      (Or.inl (getField_cons_ne (by decide)))
      (Or.inl (getField_cons_ne (by decide)))
      (Or.inl (getField_cons_ne (by decide)))
      (Or.inl (getField_cons_ne (by decide)))
      (Or.inl (getField_cons_ne (by decide)))
      (Or.inl (getField_cons_ne (by decide)))
      (Or.inl (getField_cons_ne (by decide)))
      (Or.inl (getField_cons_ne (by decide)))
      (getField_cons_ne (by decide))
      (getField_cons_ne (by decide))

/-- A Parameter object carrying its enumeration under the key enum. -/
def enumDemoMembers : List (String × Json) :=
  [("destination", Json.obj [("env", Json.str "PORT")]),
   ("enum", Json.arr [Json.str "a"]),
   ("type", Json.str "string")]

/-- The Parameter that enumDemoMembers decodes to. -/
def enumDemoParam : Parameter :=
  ⟨none, ⟨some "PORT", none⟩, none, some [Json.str "a"], none, none, none, none,
   none, none, none, none, false, "string"⟩

/-- Witness for the amended C2 at concrete inputs, exercising all three
parts: an enum list decoded, an absent enum key, and an ignored
allowedValues member. -/
theorem claim2_enum_key_witness :
    enumDemoParam.allowed_values = some [Json.str "a"] ∧
    cex2Param.allowed_values = none ∧
    decodeParameter (Json.obj cex2Members) =
      decodeParameter (Json.obj [("destination", Json.obj [("env", Json.str "PORT")]),
        ("type", Json.str "string")]) :=
  ⟨claim2_enum_key.1 enumDemoMembers [Json.str "a"] enumDemoParam rfl rfl,
   claim2_enum_key.2.1 cex2Members cex2Param rfl rfl,
   claim2_enum_key.2.2 (Json.arr [Json.str "a"])
     [("destination", Json.obj [("env", Json.str "PORT")]), ("type", Json.str "string")]⟩

/-- A file system on which the first open yields a non-canonical text and the
re-open fails. -/
def cex3fs : Nat → Option String :=
  fun n => if n = 0 then some prettyDemo else none

/-- C3 counterexample: when the fallback re-open fails, decode_from_file
panics instead of returning a typed error. -/
theorem claim3_panic_cex : (fromFile cex3fs).isPanic = true := rfl

/-- C3 as amended: every failure of decode_from_file is a returned typed
error — a panic is possible only on the fallback path, when the re-open of
the file after a canonical whitespace failure itself fails. -/
theorem claim3_typed_unless_reopen_fails (fs : Nat → Option String)
    (h : (fromFile fs).isPanic = true) : fs 1 = none := by
  cases h0 : fs 0 with
  | none => simp [fromFile, h0, FileOutcome.isPanic] at h
  | some s =>
    cases hc : canonicalDecode s with
    | ok b => simp [fromFile, h0, hc, FileOutcome.isPanic] at h
    | error err =>
      cases hw : err.isUnexpectedWhitespace with
      | false => simp [fromFile, h0, hc, hw, FileOutcome.isPanic] at h
      | true =>
        cases h1 : fs 1 with
        | none => rfl
        | some s2 =>
          cases hs : serdeDecode s2 with
          | ok b => simp [fromFile, h0, hc, hw, h1, hs, FileOutcome.isPanic] at h
          | error e2 => simp [fromFile, h0, hc, hw, h1, hs, FileOutcome.isPanic] at h

/-- Witness for the amended C3: the panicking run indeed has a failing
re-open. -/
theorem claim3_typed_unless_reopen_fails_witness : cex3fs 1 = none :=
  claim3_typed_unless_reopen_fails cex3fs rfl

/-- C4: decode_from_file and decode_from_string have identical semantics
differing only in source: on a file system where every open of the path
succeeds and yields the same text T, decode_from_file returns exactly the
outcome of decode_from_string on T. -/
theorem claim4_file_string_equiv (fs : Nat → Option String) (T : String)
    (h : ∀ n, fs n = some T) : fromFile fs = toOutcome (fromStr T) := by
  cases hc : canonicalDecode T with
  | ok b => simp [fromFile, fromStr, h, hc, toOutcome]
  | error err =>
    cases hw : err.isUnexpectedWhitespace with
    | false => simp [fromFile, fromStr, h, hc, hw, toOutcome]
    | true =>
      cases hs : serdeDecode T with
      | ok b => simp [fromFile, fromStr, h, hc, hw, hs, toOutcome]
      | error e2 => simp [fromFile, fromStr, h, hc, hw, hs, toOutcome]

/-- Witness for C4 on a concrete stable file system. -/
theorem claim4_file_string_equiv_witness :
    fromFile (fun _ => some prettyDemo) = toOutcome (fromStr prettyDemo) :=
  claim4_file_string_equiv (fun _ => some prettyDemo) prettyDemo (fun _ => rfl)

/-- C5: a JSON document missing any one of the required fields name,
schemaVersion, version or invocationImages never decodes to a Bundle; no
default is substituted for the missing required field.  In the pipeline the
failure surfaces as the canonical-syntax kind (canonical path) or the
standard-JSON kind (permissive path). -/
theorem claim5_missing_required (l : List (String × Json))
    (h : getField l "name" = none ∨ getField l "schemaVersion" = none ∨
         getField l "version" = none ∨ getField l "invocationImages" = none) :
    okB (decodeBundle (Json.obj l)) = false := by
  cases hd : decodeBundle (Json.obj l) with
  | error e => rfl
  | ok b =>
    exfalso
    have hf := decodeBundle_ok_fields hd
    rcases h with hk | hk | hk | hk
    · have hr := hf.2.2.2.2.2.2.1
      rw [hk] at hr
      simp [reqFieldD] at hr
    · have hr := hf.2.2.2.2.2.2.2.1
      rw [hk] at hr
      simp [reqFieldD] at hr
    · have hr := hf.2.2.2.2.2.2.2.2
      rw [hk] at hr
      simp [reqFieldD] at hr
    · have hr := hf.2.2.2.2.2.1
      rw [hk] at hr
      simp [reqFieldD] at hr

/-- Witness for C5: the empty object decodes to no Bundle. -/
theorem claim5_missing_required_witness : okB (decodeBundle (Json.obj [])) = false :=
  claim5_missing_required [] (Or.inl rfl)

/-- C6 counterexample: a schema-conformant text that is valid JSON but not
canonical because its keys are unsorted (with no whitespace) decodes
permissively, yet decode_from_string fails on it — the fallback runs only on
the whitespace failure, so the claim does not hold for every non-canonical
valid document. -/
theorem claim6_unsorted_cex :
    okB (serdeDecode unsortedDemo) = true ∧ okB (fromStr unsortedDemo) = false :=
  ⟨rfl, rfl⟩

/-- C6 as amended: for every text whose canonical decode fails specifically
with the unexpected-whitespace syntax error (e.g. pretty-printed with
indentation) and which permissively parses to a schema-conformant document,
decode_from_string succeeds via the permissive fallback and yields a Bundle
equal in content to the one decoded from the equivalent canonical-form text
of the same document. -/
theorem claim6_whitespace_fallback (s t : String) (d : Json) (b : Bundle)
    (hws : parseDoc true s = .error ParseErr.unexpectedWhitespace)
    (hperm : parseDoc false s = .ok d)
    (hcanon : parseDoc true t = .ok d)
    (hdec : decodeBundle d = .ok b) :
    fromStr s = .ok b ∧ fromStr t = .ok b := by
  constructor
  · simp [fromStr, canonicalDecode, serdeDecode, hws, hperm, hdec,
      CanonErr.isUnexpectedWhitespace]
  · simp [fromStr, canonicalDecode, hcanon, hdec]

/-- Witness for the amended C6 at the pretty-printed and canonical demos. -/
theorem claim6_whitespace_fallback_witness :
    fromStr prettyDemo = .ok demoBundle ∧ fromStr canonDemo = .ok demoBundle :=
  claim6_whitespace_fallback prettyDemo canonDemo demoDoc demoBundle rfl rfl rfl rfl

/-- C7: a Parameter object omitting the required key decodes with required =
false, and an Action object omitting the modifies or stateless key decodes
with that field false — the declared default is populated, never left unset. -/
theorem claim7_default_bools :
    (∀ l p, getField l "required" = none → decodeParameter (Json.obj l) = .ok p →
        p.required = false) ∧
    (∀ l a, getField l "modifies" = none → decodeAction (Json.obj l) = .ok a →
        a.modifies = false) ∧
    (∀ l a, getField l "stateless" = none → decodeAction (Json.obj l) = .ok a →
        a.stateless = false) := by
  refine ⟨?_, ?_, ?_⟩
  · intro l p hk hd
    have hf := (decodeParameter_ok_fields hd).2
    rw [hk] at hf
    simp only [defBoolD] at hf
    injection hf with h2
    exact h2.symm
  · intro l a hk hd
    have hf := (decodeAction_ok_fields hd).1
    rw [hk] at hf
    simp only [defBoolD] at hf
    injection hf with h2
    exact h2.symm
  · intro l a hk hd
    have hf := (decodeAction_ok_fields hd).2
    rw [hk] at hf
    simp only [defBoolD] at hf
    injection hf with h2
    exact h2.symm

/-- The Action that the empty object decodes to. -/
def emptyAction : Action := ⟨none, false, false⟩

/-- Witness for C7 at concrete inputs omitting the defaulted keys. -/
theorem claim7_default_bools_witness :
    cex2Param.required = false ∧ emptyAction.modifies = false ∧
    emptyAction.stateless = false :=
  ⟨claim7_default_bools.1 cex2Members cex2Param rfl rfl,
   claim7_default_bools.2.1 [] emptyAction rfl rfl,
   claim7_default_bools.2.2 [] emptyAction rfl rfl⟩

/-- C8: in every successfully decoded Bundle, each present mapping-typed
field (actions, credentials, custom, images, parameters) is strictly sorted
by key lexicographically, whatever the key order of the input JSON. -/
theorem claim8_maps_sorted (l : List (String × Json)) (b : Bundle)
    (h : decodeBundle (Json.obj l) = .ok b) :
    (∀ m, b.actions = some m → keysSortedB m = true) ∧
    (∀ m, b.credentials = some m → keysSortedB m = true) ∧
    (∀ m, b.custom = some m → keysSortedB m = true) ∧
    (∀ m, b.images = some m → keysSortedB m = true) ∧
    (∀ m, b.parameters = some m → keysSortedB m = true) := by
  have hf := decodeBundle_ok_fields h
  refine ⟨?_, ?_, ?_, ?_, ?_⟩
  · intro m hm
    have h1 := hf.1
    rw [hm] at h1
    obtain ⟨v, _, hv⟩ := optFieldD_some_inv h1
    exact decodeSMap_sorted hv
  · intro m hm
    have h1 := hf.2.1
    rw [hm] at h1
    obtain ⟨v, _, hv⟩ := optFieldD_some_inv h1
    exact decodeSMap_sorted hv
  · intro m hm
    have h1 := hf.2.2.1
    rw [hm] at h1
    obtain ⟨v, _, hv⟩ := optFieldD_some_inv h1
    exact decodeSMap_sorted hv
  · intro m hm
    have h1 := hf.2.2.2.1
    rw [hm] at h1
    obtain ⟨v, _, hv⟩ := optFieldD_some_inv h1
    exact decodeSMap_sorted hv
  · intro m hm
    have h1 := hf.2.2.2.2.1
    rw [hm] at h1
    obtain ⟨v, _, hv⟩ := optFieldD_some_inv h1
    exact decodeSMap_sorted hv

/-- A bundle document whose actions map is given with unsorted keys. -/
def demo8Members : List (String × Json) :=
  [("actions", Json.obj [("b", Json.obj []), ("a", Json.obj [])]),
   ("invocationImages", Json.arr []), ("name", Json.str "x"),
   ("schemaVersion", Json.str "1.0"), ("version", Json.str "0.1.0")]

/-- The sorted actions map demo8Members decodes to. -/
def demo8Actions : SMap Action :=
  [("a", emptyAction), ("b", emptyAction)]

/-- The Bundle that demo8Members decodes to. -/
def demo8Bundle : Bundle :=
  ⟨some demo8Actions, none, none, none, none, [], none, none, none, "x", none,
   "1.0", "0.1.0"⟩

/-- Witness for C8: the actions map decoded from unsorted input is sorted. -/
theorem claim8_maps_sorted_witness : keysSortedB demo8Actions = true :=
  (claim8_maps_sorted demo8Members demo8Bundle rfl).1 demo8Actions rfl

/-- C9: Bundle decoding ignores members whose keys are not schema fields:
any object decodes exactly as the same object with its unknown keys removed
(so unknown keys are never an error and never change the value). -/
theorem claim9_unknown_keys (l : List (String × Json)) :
    decodeBundle (Json.obj (stripUnknownB l)) = decodeBundle (Json.obj l) := by
  unfold stripUnknownB
  exact decodeBundle_fields_congr
    (Or.inl (getField_filter (by decide)))
    (Or.inl (getField_filter (by decide)))
    (Or.inl (getField_filter (by decide)))
    (Or.inl (getField_filter (by decide)))
    (Or.inl (getField_filter (by decide)))
    (getField_filter (by decide))
    (Or.inl (getField_filter (by decide)))
    (Or.inl (getField_filter (by decide)))
    (Or.inl (getField_filter (by decide)))
    (getField_filter (by decide))
    (Or.inl (getField_filter (by decide)))
    (getField_filter (by decide))
    (getField_filter (by decide))

/-- C10: for every Option-typed field of every entity (Bundle, Image,
Platform, Maintainer, Credential, Parameter, Destination, Action, Metadata),
binding the field's key to an explicit JSON null decodes exactly as omitting
the key entirely. -/
theorem claim10_null_absent :
    (∀ k l, k ∈ bundleOptKeys → hasKey l k = false →
        decodeBundle (Json.obj ((k, Json.null) :: l)) = decodeBundle (Json.obj l)) ∧
    (∀ k l, k ∈ imageOptKeys → hasKey l k = false →
        decodeImage (Json.obj ((k, Json.null) :: l)) = decodeImage (Json.obj l)) ∧
    (∀ k l, k ∈ platformOptKeys → hasKey l k = false →
        decodePlatform (Json.obj ((k, Json.null) :: l)) = decodePlatform (Json.obj l)) ∧
    (∀ k l, k ∈ maintainerOptKeys → hasKey l k = false →
        decodeMaintainer (Json.obj ((k, Json.null) :: l)) = decodeMaintainer (Json.obj l)) ∧
    (∀ k l, k ∈ credentialOptKeys → hasKey l k = false →
        decodeCredential (Json.obj ((k, Json.null) :: l)) = decodeCredential (Json.obj l)) ∧
    (∀ k l, k ∈ parameterOptKeys → hasKey l k = false →
        decodeParameter (Json.obj ((k, Json.null) :: l)) = decodeParameter (Json.obj l)) ∧
    (∀ k l, k ∈ destinationOptKeys → hasKey l k = false →
        decodeDestination (Json.obj ((k, Json.null) :: l)) = decodeDestination (Json.obj l)) ∧
    (∀ k l, k ∈ actionOptKeys → hasKey l k = false →
        decodeAction (Json.obj ((k, Json.null) :: l)) = decodeAction (Json.obj l)) ∧
    (∀ k l, k ∈ metadataOptKeys → hasKey l k = false →
        decodeMetadata (Json.obj ((k, Json.null) :: l)) = decodeMetadata (Json.obj l)) := by
  refine ⟨?_, ?_, ?_, ?_, ?_, ?_, ?_, ?_, ?_⟩
  · intro k l hk hno
    have hne : ∀ r : String, r ∉ bundleOptKeys → k ≠ r := fun r hr e => hr (e ▸ hk)
    exact decodeBundle_fields_congr
      (getField_cons_null_nullyEq hno)
      (getField_cons_null_nullyEq hno)
      (getField_cons_null_nullyEq hno)
      (getField_cons_null_nullyEq hno)
      (getField_cons_null_nullyEq hno)
      (getField_cons_ne (hne "invocationImages" (by decide)))
      (getField_cons_null_nullyEq hno)
      (getField_cons_null_nullyEq hno)
      (getField_cons_null_nullyEq hno)
      (getField_cons_ne (hne "name" (by decide)))
      (getField_cons_null_nullyEq hno)
      (getField_cons_ne (hne "schemaVersion" (by decide)))
      (getField_cons_ne (hne "version" (by decide)))
  · intro k l hk hno
    have hne : ∀ r : String, r ∉ imageOptKeys → k ≠ r := fun r hr e => hr (e ▸ hk)
    exact decodeImage_fields_congr
      (getField_cons_null_nullyEq hno)
      (getField_cons_ne (hne "image" (by decide)))
      (getField_cons_null_nullyEq hno)
      (getField_cons_null_nullyEq hno)
      (getField_cons_null_nullyEq hno)
      (getField_cons_null_nullyEq hno)
  · intro k l _hk hno
    exact decodePlatform_fields_congr
      (getField_cons_null_nullyEq hno)
      (getField_cons_null_nullyEq hno)
  · intro k l hk hno
    have hne : ∀ r : String, r ∉ maintainerOptKeys → k ≠ r := fun r hr e => hr (e ▸ hk)
    exact decodeMaintainer_fields_congr
      (getField_cons_null_nullyEq hno)
      (getField_cons_ne (hne "name" (by decide)))
      (getField_cons_null_nullyEq hno)
  · intro k l _hk hno
    exact decodeCredential_fields_congr
      (getField_cons_null_nullyEq hno)
      (getField_cons_null_nullyEq hno)
      (getField_cons_null_nullyEq hno)
  · intro k l hk hno
    have hne : ∀ r : String, r ∉ parameterOptKeys → k ≠ r := fun r hr e => hr (e ▸ hk)
    exact decodeParameter_fields_congr
      (getField_cons_null_nullyEq hno)
      (getField_cons_ne (hne "destination" (by decide)))
      (getField_cons_null_nullyEq hno)
      (getField_cons_null_nullyEq hno)
      (getField_cons_null_nullyEq hno)
      (getField_cons_null_nullyEq hno)
      (getField_cons_null_nullyEq hno)
      (getField_cons_null_nullyEq hno)
      (getField_cons_null_nullyEq hno)
      (getField_cons_null_nullyEq hno)
      (getField_cons_null_nullyEq hno)
      (getField_cons_null_nullyEq hno)
      (getField_cons_ne (hne "required" (by decide)))
      (getField_cons_ne (hne "type" (by decide)))
  · intro k l _hk hno
    exact decodeDestination_fields_congr
      (getField_cons_null_nullyEq hno)
      (getField_cons_null_nullyEq hno)
  · intro k l hk hno
    have hne : ∀ r : String, r ∉ actionOptKeys → k ≠ r := fun r hr e => hr (e ▸ hk)
    exact decodeAction_fields_congr
      (getField_cons_null_nullyEq hno)
      (getField_cons_ne (hne "modifies" (by decide)))
      (getField_cons_ne (hne "stateless" (by decide)))
  · intro k l _hk hno
    exact decodeMetadata_fields_congr
      (getField_cons_null_nullyEq hno)

/-- Witness for C10 at concrete inputs: an explicit null Bundle description,
a null Image digest and a null Credential env each behave as omitted keys. -/
theorem claim10_null_absent_witness :
    (decodeBundle (Json.obj (("description", Json.null) :: demoMembers)) =
      decodeBundle (Json.obj demoMembers)) ∧
    (decodeImage (Json.obj [("digest", Json.null), ("image", Json.str "i")]) =
      decodeImage (Json.obj [("image", Json.str "i")])) ∧
    (decodeCredential (Json.obj [("env", Json.null)]) = decodeCredential (Json.obj [])) :=
  ⟨claim10_null_absent.1 "description" demoMembers (by decide) rfl,
   claim10_null_absent.2.1 "digest" [("image", Json.str "i")] (by decide) rfl,
   claim10_null_absent.2.2.2.2.1 "env" [] (by decide) rfl⟩

end Cnab
